import Mathlib

/-!
Altimeter (Raspberry Pi Pico): SSD1306 text renderer and cross-core dispatch.

A shallow embedding of `ssd1306_i2c.c` / `ssd1306_i2c.h` and of the queue
protocol and display loop of `main.c`, followed by the properties proved
about them.

Conventions of the embedding.

* A C integer is a Lean `Int` (or a `Nat` for an unsigned byte); a conversion
  to a narrower signed type is written out with `toInt16` / `toInt32`
  (two's complement wrap-around, as the ARM GCC target does).
* The framebuffer `uint8_t buf[SSD1306_BUF_LEN]` is a `List Nat`; a store
  through `buf[k]` with `k` outside the array is undefined behaviour and is
  modelled as the result `none`.
* `font` is the glyph table of `font.h`, which is not among the sources; it is
  a parameter `font : Nat → Nat` (index to byte).
* A C string is the list of its bytes; scanning stops at the first `0` byte or
  at the end of the list (the implicit terminator).
* The two SDK queues are lists with the capacity given at `queue_init`; a
  blocking call that cannot proceed yields `none`. The two loops are atomic
  steps that interleave; the sleeps and the `printf` calls are left out.
* A `float` crossing the queues is a value of a type parameter `F`; where the
  display loop computes with it, values are exact rationals and the theorems
  allow for a perturbation that exceeds any floating-point rounding error.
-/

namespace Altimeter

/-! ## Machine integers -/

/-- Conversion of an integer value to `int16_t`. -/
def toInt16 (v : Int) : Int := (v + 32768) % 65536 - 32768

/-- Conversion of an integer value to `int` (32 bits). -/
def toInt32 (v : Int) : Int := (v + 2147483648) % 4294967296 - 2147483648

/-! ## `ssd1306_i2c.h` -/

def SSD1306_HEIGHT : Nat := 64

def SSD1306_WIDTH : Nat := 128

def SSD1306_PAGE_HEIGHT : Nat := 8

def SSD1306_NUM_PAGES : Nat := SSD1306_HEIGHT / SSD1306_PAGE_HEIGHT

def SSD1306_BUF_LEN : Nat := SSD1306_NUM_PAGES * SSD1306_WIDTH

/-- The `struct render_area`: four `uint8_t` bounds and the `int buflen`. -/
structure render_area where
  start_col : Nat
  end_col : Nat
  start_page : Nat
  end_page : Nat
  buflen : Int
  deriving DecidableEq, Repr

/-! ## `ssd1306_i2c.c` -/

/-- The function `calc_render_area_buflen`: the bounds are promoted to `int`,
the product is stored in `buflen`. -/
def calc_render_area_buflen (area : render_area) : render_area :=
  { area with
    buflen := toInt32 (((area.end_col : Int) - (area.start_col : Int) + 1)
                * ((area.end_page : Int) - (area.start_page : Int) + 1)) }

/-- The function `GetFontIndex`; the character `' '` is byte 32. -/
def GetFontIndex (ch : Nat) : Int :=
  if ch ≥ 32 ∧ ch ≤ 127 then (ch : Int) - 32 else 0

/-- The store `buf[k] = v`: defined only inside the array. -/
def store (buf : List Nat) (k : Int) (v : Nat) : Option (List Nat) :=
  if 0 ≤ k ∧ k < (buf.length : Int) then some (buf.set k.toNat v) else none

/-- The loop `for (int i=0;i<8;i++) buf[fb_idx++] = font[idx * 8 + i];` of
`WriteChar`, with `n` the number of iterations still to run. -/
def WriteChar_loop (font : Nat → Nat) (idx : Int) :
    Nat → Int → Int → List Nat → Option (List Nat)
  | 0, _, _, buf => some buf
  | n + 1, i, fb_idx, buf =>
    (store buf fb_idx (font (idx * 8 + i).toNat)).bind
      (WriteChar_loop font idx n (i + 1) (fb_idx + 1))

/-- The function `WriteChar`. -/
def WriteChar (font : Nat → Nat) (buf : List Nat) (x y : Int) (ch : Nat) :
    Option (List Nat) :=
  if x > (SSD1306_WIDTH : Int) - 8 ∨ y > (SSD1306_HEIGHT : Int) - 8 then
    some buf
  else
    let y := toInt16 (Int.tdiv y 8)
    let idx := GetFontIndex ch
    let fb_idx := toInt32 (y * 128 + x)
    WriteChar_loop font idx 8 0 fb_idx buf

/-- The loop `while (*str) { WriteChar(buf, x, y, *str++); x+=8; }` of
`WriteString`; `x` is an `int16_t`. -/
def WriteString_loop (font : Nat → Nat) (y : Int) :
    List Nat → Int → List Nat → Option (List Nat)
  | [], _, buf => some buf
  | c :: str, x, buf =>
    if c = 0 then some buf
    else (WriteChar font buf x y c).bind
      (WriteString_loop font y str (toInt16 (x + 8)))

/-- The function `WriteString`. -/
def WriteString (font : Nat → Nat) (buf : List Nat) (x y : Int) (str : List Nat) :
    Option (List Nat) :=
  if x > (SSD1306_WIDTH : Int) - 8 ∨ y > (SSD1306_HEIGHT : Int) - 8 then
    some buf
  else
    WriteString_loop font y str x buf

/-- The call `memset(buf, c, n)` on the array `buf`. -/
def memset (buf : List Nat) (c : Nat) (n : Nat) : List Nat :=
  List.replicate (min n buf.length) c ++ buf.drop n

/-! ## `main.c`: the data crossing the two queues -/

/-- The `void *ctx` sensor handle. -/
abbrev Ctx := Nat

/-- The `struct queue_response_t`; `F` stands for the type `float`. -/
structure queue_response_t (F : Type) where
  temp : F
  pressure : F
  humidity : F
  status : Int

/-- What the outside world contributes to one call of `read_dps310_data`: the
return value and the three out-parameters of `i2c_read_measurement`, and the
indeterminate initial content of the local `response`. -/
structure SensorInput (F : Type) where
  res : Int
  temp : F
  pressure : F
  humidity : F
  response : queue_response_t F

/-- The `struct queue_entry_t`: a function pointer and its context. -/
structure queue_entry_t (F : Type) where
  func : Ctx → SensorInput F → queue_response_t F
  ctx : Ctx

/-- The function `read_dps310_data`: in the cases `-1`, `-2` and `-4` only
`status` is assigned, in the default case the three readings as well. -/
def read_dps310_data {F : Type} (_ctx : Ctx) (w : SensorInput F) : queue_response_t F :=
  let response := w.response
  let response :=
    if w.res = -1 then response
    else if w.res = -2 then response
    else if w.res = -4 then response
    else { response with temp := w.temp, pressure := w.pressure, humidity := w.humidity }
  { response with status := w.res }

/-! ## The SDK queue (`pico/util/queue.h`), capacity fixed at `queue_init` -/

/-- The call `queue_add_blocking`: `none` while the queue is full (the caller
stays blocked), otherwise the element is appended at the tail. -/
def queue_add_blocking {α : Type} (capacity : Nat) (q : List α) (a : α) : Option (List α) :=
  if q.length < capacity then some (q ++ [a]) else none

/-- The call `queue_remove_blocking`: `none` while the queue is empty (the
caller stays blocked), otherwise the head and the remaining queue. -/
def queue_remove_blocking {α : Type} (q : List α) : Option (α × List α) :=
  match q with
  | [] => none
  | a :: rest => some (a, rest)

/-- The call `queue_is_empty`. -/
def queue_is_empty {α : Type} (q : List α) : Bool := q.isEmpty

/-! ## `main.c`: the two loops as a transition system -/

/-- Where `core1_entry` stands: before `queue_remove_blocking`, or before
`queue_add_blocking` with the response it holds. -/
inductive Core1Pc (F : Type) where
  | remove : Core1Pc F
  | add (response : queue_response_t F) : Core1Pc F

/-- Where the loop of `main` stands: before `queue_is_empty`, before
`queue_remove_blocking` (if-branch), or before `queue_add_blocking`
(else-branch). -/
inductive Core0Pc where
  | is_empty : Core0Pc
  | remove : Core0Pc
  | add : Core0Pc
  deriving DecidableEq, Repr

/-- The state shared by the two cores, and their program points. -/
structure Sys (F : Type) where
  to_core1_queue : List (queue_entry_t F)
  from_core1_queue : List (queue_response_t F)
  core0 : Core0Pc
  core1 : Core1Pc F

/-- One atomic step of `core1_entry`, the call of `entry.func` reading `w`
from the sensor; `none` when the pending queue call blocks. -/
def core1_step {F : Type} (s : Sys F) (w : SensorInput F) : Option (Sys F) :=
  match s.core1 with
  | Core1Pc.remove =>
    match queue_remove_blocking s.to_core1_queue with
    | none => none
    | some (entry, rest) =>
      let response := entry.func entry.ctx w
      if response.status = 0 then
        some { s with to_core1_queue := rest, core1 := Core1Pc.add response }
      else
        some { s with to_core1_queue := rest, core1 := Core1Pc.remove }
  | Core1Pc.add response =>
    match queue_add_blocking 2 s.from_core1_queue response with
    | none => none
    | some q => some { s with from_core1_queue := q, core1 := Core1Pc.remove }

/-- One pass through the body of the loop of `core1_entry` with no step of the
other core in between. -/
def core1_iteration {F : Type} (s : Sys F) (w : SensorInput F) : Option (Sys F) :=
  (core1_step s w).bind fun s1 =>
    match s1.core1 with
    | Core1Pc.remove => some s1
    | Core1Pc.add _ => core1_step s1 w

/-- One atomic step of the loop of `main`, as far as the queues go; `entry` is
the local descriptor of line 210; `none` when the pending queue call blocks. -/
def core0_step {F : Type} (entry : queue_entry_t F) (s : Sys F) : Option (Sys F) :=
  match s.core0 with
  | Core0Pc.is_empty =>
    if !queue_is_empty s.from_core1_queue then
      some { s with core0 := Core0Pc.remove }
    else
      some { s with core0 := Core0Pc.add }
  | Core0Pc.remove =>
    match queue_remove_blocking s.from_core1_queue with
    | none => none
    | some (_, rest) => some { s with from_core1_queue := rest, core0 := Core0Pc.is_empty }
  | Core0Pc.add =>
    match queue_add_blocking 2 s.to_core1_queue entry with
    | none => none
    | some q => some { s with to_core1_queue := q, core0 := Core0Pc.is_empty }

/-- The descriptor `entry = {.func = read_dps310_data, .ctx = ctx}` of `main`. -/
def main_entry (F : Type) (ctx : Ctx) : queue_entry_t F :=
  { func := read_dps310_data, ctx := ctx }

/-- The state after initialisation: both queues created, the first descriptor
enqueued (line 211), both loops at their head. -/
def init_state {F : Type} (entry : queue_entry_t F) : Sys F :=
  { to_core1_queue := [entry], from_core1_queue := [],
    core0 := Core0Pc.is_empty, core1 := Core1Pc.remove }

/-- The status returned by the invocation that a step of core 1 performs, if
the step performs one. -/
def invoked_status {F : Type} (s : Sys F) (w : SensorInput F) : Option Int :=
  match s.core1, s.to_core1_queue with
  | Core1Pc.remove, entry :: _ => some (entry.func entry.ctx w).status
  | _, _ => none

/-- The states reachable from `init_state entry` by interleaved steps of the
two cores when no invocation of a work function returns status `0`. -/
inductive FaultReachable {F : Type} (entry : queue_entry_t F) : Sys F → Prop where
  | init : FaultReachable entry (init_state entry)
  | core0 (s t : Sys F) : FaultReachable entry s → core0_step entry s = some t →
      FaultReachable entry t
  | core1 (s t : Sys F) (w : SensorInput F) : FaultReachable entry s →
      invoked_status s w ≠ some 0 → core1_step s w = some t → FaultReachable entry t

/-! ## `main.c`: formatting and the framebuffer in the display loop -/

/-- The bytes of a string literal. -/
def cstr (s : String) : List Nat := s.toList.map Char.toNat

/-- Rounding of a non-negative value to the nearest integer, ties to even. -/
def round_nearest (t : ℚ) : Nat :=
  let f := ⌊t⌋.toNat
  let r := t - (f : ℚ)
  if r < 1 / 2 then f
  else if 1 / 2 < r then f + 1
  else if f % 2 = 0 then f else f + 1

/-- The conversion `%.2f` of `printf`: the value rounded to two decimals. -/
def fmt2 (v : ℚ) : String :=
  let n := round_nearest (|v| * 100)
  let frac := n % 100
  (if v < 0 then "-" else "") ++ toString (n / 100) ++ "."
    ++ (if frac < 10 then "0" else "") ++ toString frac

/-- The argument `sensor_response.pressure*0.000296134` (exact arithmetic). -/
def baro_value (pressure : ℚ) : ℚ := pressure * 0.000296134

/-- The argument `sensor_response.temp*1.8+32` (exact arithmetic). -/
def temp_value (temp : ℚ) : ℚ := temp * 1.8 + 32

/-- The text of `sprintf(baro, "Baro: %.2finHg", v)`. -/
def baro_text (v : ℚ) : String := "Baro: " ++ fmt2 v ++ "inHg"

/-- The text of `sprintf(temp, "Temp: %.2fF", v)`. -/
def temp_text (v : ℚ) : String := "Temp: " ++ fmt2 v ++ "F"

/-- The text of `sprintf(hum, "Hum: %.2f", v)`. -/
def hum_text (v : ℚ) : String := "Hum: " ++ fmt2 v

/-- The three lines that the if-branch of the loop of `main` formats. -/
def main_lines (r : queue_response_t ℚ) : String × String × String :=
  (baro_text (baro_value r.pressure), temp_text (temp_value r.temp), hum_text r.humidity)

/-- A `sprintf` into a `char[16]`: the text and its terminator must fit. -/
def sprintf16 (text : String) : Option (List Nat) :=
  if text.length < 16 then some (cstr text) else none

/-- The framebuffer part of one iteration of the loop of `main`: `buf` is the
content left by the earlier iterations, `r` the response dequeued in the
if-branch, or `none` in the else-branch (result queue empty); the value is the
buffer handed to `render`. -/
def main_loop_buf (font : Nat → Nat) (buf : List Nat) :
    Option (queue_response_t ℚ) → Option (List Nat)
  | some sensor_response =>
    (sprintf16 (baro_text (baro_value sensor_response.pressure))).bind fun baro =>
    (sprintf16 (temp_text (temp_value sensor_response.temp))).bind fun temp =>
    (sprintf16 (hum_text sensor_response.humidity)).bind fun hum =>
    let buf := memset buf 0 SSD1306_BUF_LEN
    (WriteString font buf 0 0 (cstr " ")).bind fun buf =>
    (WriteString font buf 0 10 baro).bind fun buf =>
    (WriteString font buf 0 20 temp).bind fun buf =>
    WriteString font buf 0 30 hum
  | none =>
    (sprintf16 "Sensor fault...").bind fun waiting =>
    WriteString font buf 0 0 waiting

/-- The `frame_area` of `main` before `calc_render_area_buflen`; `buflen` is
not initialised there. -/
def frame_area (buflen : Int) : render_area :=
  { start_col := 0, end_col := SSD1306_WIDTH - 1,
    start_page := 0, end_page := SSD1306_NUM_PAGES - 1, buflen := buflen }

/-- A stand-in glyph table: the space glyph blank, every other glyph solid. -/
def block_font (i : Nat) : Nat := if i < 8 then 0 else 255

/-- A sample state: one descriptor queued, `main` in its else-branch before
`queue_add_blocking`, `core1_entry` at its loop head. -/
def sample_fault_state : Sys Int :=
  { to_core1_queue := [main_entry Int 7], from_core1_queue := [],
    core0 := Core0Pc.add, core1 := Core1Pc.remove }


/-! ## Properties of the renderer -/

/-- A value in the range of `int16_t` is kept by the conversion. -/
theorem toInt16_of_range (v : Int) (h1 : -32768 ≤ v) (h2 : v ≤ 32767) : toInt16 v = v := by
  unfold toInt16; omega

/-- A value in the range of `int` is kept by the conversion. -/
theorem toInt32_of_range (v : Int) (h1 : -2147483648 ≤ v) (h2 : v ≤ 2147483647) :
    toInt32 v = v := by
  unfold toInt32; omega

/-- A store inside the array. -/
theorem store_inside (buf : List Nat) (k : Nat) (v : Nat) (h : k < buf.length) :
    store buf (k : Int) v = some (buf.set k v) := by
  unfold store
  have h2 : (0 : Int) ≤ (k : Int) ∧ (k : Int) < (buf.length : Int) := by omega
  simp [h2]

/-- A store at a negative index is outside the array. -/
theorem store_below (buf : List Nat) (k : Int) (v : Nat) (h : k < 0) :
    store buf k v = none := by
  unfold store
  have h2 : ¬ ((0 : Int) ≤ k ∧ k < (buf.length : Int)) := by omega
  simp [h2]

/-- The eight stores of `WriteChar` starting at an index `k` with `k + n` inside
the array: the result, byte by byte. -/
theorem WriteChar_loop_inside (font : Nat → Nat) (idx : Int) (n : Nat) :
    ∀ (i : Int) (k : Nat) (buf : List Nat), k + n ≤ buf.length →
      ∃ out, WriteChar_loop font idx n i (k : Int) buf = some out ∧
        out.length = buf.length ∧
        ∀ j : Nat, out[j]? =
          if k ≤ j ∧ j < k + n then some (font (idx * 8 + (i + ((j - k : Nat) : Int))).toNat)
          else buf[j]? := by
  induction n with
  | zero =>
    intro i k buf _
    refine ⟨buf, rfl, rfl, ?_⟩
    intro j
    have : ¬ (k ≤ j ∧ j < k + 0) := by omega
    rw [if_neg this]
  | succ n ih =>
    intro i k buf hk
    have hlt : k < buf.length := by omega
    obtain ⟨out, h1, h2, h3⟩ := ih (i + 1) (k + 1) (buf.set k (font (idx * 8 + i).toNat))
      (by simp; omega)
    refine ⟨out, ?_, ?_, ?_⟩
    · simp only [WriteChar_loop, store_inside buf k _ hlt, Option.some_bind]
      have hc : ((k : Int) + 1) = ((k + 1 : Nat) : Int) := by push_cast; rfl
      rw [hc]; exact h1
    · simpa using h2
    · intro j
      rw [h3 j]
      by_cases hj1 : k + 1 ≤ j ∧ j < k + 1 + n
      · have hj2 : k ≤ j ∧ j < k + (n + 1) := by omega
        rw [if_pos hj1, if_pos hj2]
        have e : i + 1 + ((j - (k + 1) : Nat) : Int) = i + ((j - k : Nat) : Int) := by omega
        rw [e]
      · rw [if_neg hj1]
        by_cases hjk : k = j
        · subst hjk
          have hj2 : k ≤ k ∧ k < k + (n + 1) := by omega
          rw [if_pos hj2]
          simp [List.getElem?_set, hlt]
        · have hj2 : ¬ (k ≤ j ∧ j < k + (n + 1)) := by omega
          rw [if_neg hj2]
          simp [List.getElem?_set, hjk]

/-- The function `WriteChar` at a start inside the panel: the result, byte by
byte, for a buffer of the full length. -/
theorem WriteChar_inside (font : Nat → Nat) (buf : List Nat) (x y : Int) (ch : Nat)
    (hlen : buf.length = 1024) (hx0 : 0 ≤ x) (hx : x ≤ 120) (hy0 : 0 ≤ y) (hy : y ≤ 56) :
    ∃ out, WriteChar font buf x y ch = some out ∧ out.length = 1024 ∧
      ∀ j : Nat, out[j]? =
        if (y / 8 * 128 + x).toNat ≤ j ∧ j < (y / 8 * 128 + x).toNat + 8 then
          some (font (GetFontIndex ch * 8 + ((j - (y / 8 * 128 + x).toNat : Nat) : Int)).toNat)
        else buf[j]? := by
  have hdiv : Int.tdiv y 8 = y / 8 := by
    rw [Int.tdiv_eq_ediv] <;> omega
  have hg : ¬ (x > (SSD1306_WIDTH : Int) - 8 ∨ y > (SSD1306_HEIGHT : Int) - 8) := by
    simp only [SSD1306_WIDTH, SSD1306_HEIGHT]; omega
  have hfb : toInt32 (toInt16 (Int.tdiv y 8) * 128 + x) = (((y / 8 * 128 + x).toNat : Nat) : Int) := by
    rw [hdiv, toInt16_of_range _ (by omega) (by omega), toInt32_of_range _ (by omega) (by omega)]
    omega
  obtain ⟨out, h1, h2, h3⟩ := WriteChar_loop_inside font (GetFontIndex ch) 8 0
    (y / 8 * 128 + x).toNat buf (by omega)
  refine ⟨out, ?_, by omega, ?_⟩
  · simp only [WriteChar, if_neg hg, hfb]; exact h1
  · intro j
    rw [h3 j]
    simp

/-- The function `WriteChar` depends on `y` only through the guard and the
quotient of `y` by 8. -/
theorem WriteChar_same_row (font : Nat → Nat) (buf : List Nat) (x y1 y2 : Int) (ch : Nat)
    (h1 : y1 ≤ 56) (h2 : y2 ≤ 56) (h : Int.tdiv y1 8 = Int.tdiv y2 8) :
    WriteChar font buf x y1 ch = WriteChar font buf x y2 ch := by
  have g1 : ¬ (y1 > (SSD1306_HEIGHT : Int) - 8) := by simp only [SSD1306_HEIGHT]; omega
  have g2 : ¬ (y2 > (SSD1306_HEIGHT : Int) - 8) := by simp only [SSD1306_HEIGHT]; omega
  simp only [WriteChar, g1, g2, h, or_false]

/-- The function `WriteChar` at a column left of the array start stores below
the array. -/
theorem WriteChar_below (font : Nat → Nat) (buf : List Nat) (x y : Int) (ch : Nat)
    (hx1 : -32768 ≤ x) (hx : x < -896) (hy0 : 0 ≤ y) (hy : y ≤ 56) :
    WriteChar font buf x y ch = none := by
  have hdiv : Int.tdiv y 8 = y / 8 := by
    rw [Int.tdiv_eq_ediv] <;> omega
  have hg : ¬ (x > (SSD1306_WIDTH : Int) - 8 ∨ y > (SSD1306_HEIGHT : Int) - 8) := by
    simp only [SSD1306_WIDTH, SSD1306_HEIGHT]; omega
  have hfb : toInt32 (toInt16 (Int.tdiv y 8) * 128 + x) < 0 := by
    rw [hdiv, toInt16_of_range _ (by omega) (by omega), toInt32_of_range _ (by omega) (by omega)]
    omega
  simp only [WriteChar, if_neg hg, WriteChar_loop, store_below _ _ _ hfb, Option.none_bind]

/-- The loop of `WriteString` once the column is right of the panel: every
character is clipped as long as the column stays below 2^15. -/
theorem WriteString_loop_clipped (font : Nat → Nat) (y : Int) (str : List Nat) :
    ∀ (x : Int) (buf : List Nat), 120 < x → x + 8 * (str.length : Int) ≤ 32775 →
      WriteString_loop font y str x buf = some buf := by
  induction str with
  | nil => intro x buf _ _; rfl
  | cons c rest ih =>
    intro x buf hx hlen
    have hg : x > (SSD1306_WIDTH : Int) - 8 ∨ y > (SSD1306_HEIGHT : Int) - 8 := by
      left; simp only [SSD1306_WIDTH]; omega
    have hw : WriteChar font buf x y c = some buf := by simp only [WriteChar, if_pos hg]
    simp only [WriteString_loop, hw, Option.some_bind]
    by_cases hc : c = 0
    · simp [hc]
    · rw [if_neg hc]
      cases rest with
      | nil => rfl
      | cons d rest2 =>
        simp only [List.length_cons] at hlen ih
        push_cast at hlen ih
        have hx8 : toInt16 (x + 8) = x + 8 := toInt16_of_range _ (by omega) (by omega)
        rw [hx8]
        exact ih (x + 8) buf (by omega) (by omega)

/-- The loop of `WriteString` distributes over a concatenation whose first
part has no terminator and does not run past column 2^15. -/
theorem WriteString_loop_append (font : Nat → Nat) (y : Int) (s1 s2 : List Nat) :
    ∀ (x : Int) (buf : List Nat), (∀ c ∈ s1, c ≠ 0) → -32768 ≤ x →
      x + 8 * (s1.length : Int) ≤ 32767 →
      WriteString_loop font y (s1 ++ s2) x buf =
        (WriteString_loop font y s1 x buf).bind
          (WriteString_loop font y s2 (x + 8 * (s1.length : Int))) := by
  induction s1 with
  | nil => intro x buf _ _ _; simp [WriteString_loop]
  | cons c rest ih =>
    intro x buf hnz hx hlen
    have hc : c ≠ 0 := hnz c (by simp)
    simp only [List.length_cons] at hlen
    push_cast at hlen
    have hx8 : toInt16 (x + 8) = x + 8 := toInt16_of_range _ (by omega) (by omega)
    simp only [List.cons_append, WriteString_loop, if_neg hc, hx8]
    cases hw : WriteChar font buf x y c with
    | none => simp
    | some b =>
      have hih := ih (x + 8) b (fun d hd => hnz d (by simp [hd])) (by omega) (by omega)
      have e : x + 8 + 8 * (rest.length : Int) = x + 8 * (((c :: rest).length : Nat) : Int) := by
        simp only [List.length_cons]; push_cast; ring
      rw [e] at hih
      simpa using hih

/-- The loop of `WriteString` over characters that all fit on the row: the
result, byte by byte. -/
theorem WriteString_loop_fit (font : Nat → Nat) (y : Int) (hy0 : 0 ≤ y) (hy : y ≤ 56)
    (str : List Nat) :
    ∀ (c : Nat) (buf : List Nat), (∀ ch ∈ str, ch ≠ 0) → c + 8 * str.length ≤ 128 →
      buf.length = 1024 →
      ∃ out, WriteString_loop font y str (c : Int) buf = some out ∧ out.length = 1024 ∧
        ∀ j : Nat, out[j]? =
          if (y / 8).toNat * 128 + c ≤ j ∧ j < (y / 8).toNat * 128 + c + 8 * str.length then
            some (font (GetFontIndex (str.getD ((j - ((y / 8).toNat * 128 + c)) / 8) 0) * 8
              + (((j - ((y / 8).toNat * 128 + c)) % 8 : Nat) : Int)).toNat)
          else buf[j]? := by
  induction str with
  | nil =>
    intro c buf _ _ hlen
    refine ⟨buf, rfl, hlen, ?_⟩
    intro j
    have : ¬ ((y / 8).toNat * 128 + c ≤ j ∧ j < (y / 8).toNat * 128 + c + 8 * ([] : List Nat).length) := by
      simp
    rw [if_neg this]
  | cons ch rest ih =>
    intro c buf hnz hfit hlen
    have hch : ch ≠ 0 := hnz ch (by simp)
    simp only [List.length_cons] at hfit
    obtain ⟨b1, hb1, hb1len, hb1get⟩ := WriteChar_inside font buf (c : Int) y ch hlen
      (by omega) (by omega) hy0 hy
    have hx8 : toInt16 ((c : Int) + 8) = (((c + 8 : Nat)) : Int) := by
      rw [toInt16_of_range _ (by omega) (by omega)]; push_cast; rfl
    obtain ⟨out, ho, holen, hoget⟩ := ih (c + 8) b1 (fun d hd => hnz d (by simp [hd]))
      (by omega) hb1len
    refine ⟨out, ?_, holen, ?_⟩
    · simp only [WriteString_loop, if_neg hch, hb1, Option.some_bind, hx8]; exact ho
    · intro j
      rw [hoget j, hb1get j]
      have hbase : (y / 8 * 128 + (c : Int)).toNat = (y / 8).toNat * 128 + c := by omega
      rw [hbase]
      simp only [List.length_cons]
      by_cases hj1 : (y / 8).toNat * 128 + (c + 8) ≤ j ∧
          j < (y / 8).toNat * 128 + (c + 8) + 8 * rest.length
      · have hj2 : (y / 8).toNat * 128 + c ≤ j ∧
            j < (y / 8).toNat * 128 + c + 8 * (rest.length + 1) := by omega
        rw [if_pos hj1, if_pos hj2]
        have e1 : (j - ((y / 8).toNat * 128 + c)) / 8
            = (j - ((y / 8).toNat * 128 + (c + 8))) / 8 + 1 := by omega
        have e2 : (j - ((y / 8).toNat * 128 + c)) % 8
            = (j - ((y / 8).toNat * 128 + (c + 8))) % 8 := by omega
        rw [e1, e2, List.getD_cons_succ]
      · rw [if_neg hj1]
        by_cases hj3 : (y / 8).toNat * 128 + c ≤ j ∧ j < (y / 8).toNat * 128 + c + 8
        · have hj2 : (y / 8).toNat * 128 + c ≤ j ∧
              j < (y / 8).toNat * 128 + c + 8 * (rest.length + 1) := by omega
          rw [if_pos hj3, if_pos hj2]
          have e1 : (j - ((y / 8).toNat * 128 + c)) / 8 = 0 := by omega
          have e2 : (j - ((y / 8).toNat * 128 + c)) % 8 = j - ((y / 8).toNat * 128 + c) := by
            omega
          rw [e1, e2, List.getD_cons_zero]
        · have hj2 : ¬ ((y / 8).toNat * 128 + c ≤ j ∧
              j < (y / 8).toNat * 128 + c + 8 * (rest.length + 1)) := by omega
          rw [if_neg hj3, if_neg hj2]

/-- The function `WriteString` past its guard is its loop. -/
theorem WriteString_inside_guard (font : Nat → Nat) (buf : List Nat) (x y : Int) (str : List Nat)
    (hx : x ≤ 120) (hy : y ≤ 56) :
    WriteString font buf x y str = WriteString_loop font y str x buf := by
  have hg : ¬ (x > (SSD1306_WIDTH : Int) - 8 ∨ y > (SSD1306_HEIGHT : Int) - 8) := by
    simp only [SSD1306_WIDTH, SSD1306_HEIGHT]; omega
  simp only [WriteString, if_neg hg]

/-- Truncation without wrap-around: when the characters of `s1` fit on the row
from column `c`, the next column is right of the panel and the column counter
stays below 2^15 over `s2`, then `WriteString` writes `s1` and drops `s2`; the
result is given byte by byte, and no byte outside the page row of `y` changes. -/
theorem WriteString_truncates (font : Nat → Nat) (buf : List Nat) (c : Nat) (y : Int)
    (s1 s2 : List Nat) (hnz : ∀ ch ∈ s1, ch ≠ 0) (hfit : c + 8 * s1.length ≤ 128)
    (hclip : 120 < c + 8 * s1.length) (hy0 : 0 ≤ y) (hy : y ≤ 56) (hlen : buf.length = 1024)
    (hwrap : c + 8 * (s1.length + s2.length) ≤ 32775) :
    ∃ out, WriteString font buf (c : Int) y (s1 ++ s2) = some out ∧ out.length = 1024 ∧
      ∀ j : Nat, out[j]? =
        if (y / 8).toNat * 128 + c ≤ j ∧ j < (y / 8).toNat * 128 + c + 8 * s1.length then
          some (font (GetFontIndex (s1.getD ((j - ((y / 8).toNat * 128 + c)) / 8) 0) * 8
            + (((j - ((y / 8).toNat * 128 + c)) % 8 : Nat) : Int)).toNat)
        else buf[j]? := by
  obtain ⟨out, h1, h2, h3⟩ := WriteString_loop_fit font y hy0 hy s1 c buf hnz hfit hlen
  refine ⟨out, ?_, h2, h3⟩
  by_cases hc : c ≤ 120
  · rw [WriteString_inside_guard font buf (c : Int) y _ (by omega) hy,
      WriteString_loop_append font y s1 s2 (c : Int) buf hnz (by omega) (by omega), h1,
      Option.some_bind]
    exact WriteString_loop_clipped font y s2 _ out (by omega) (by omega)
  · have hs1 : s1 = [] := by
      cases s1 with
      | nil => rfl
      | cons a t => simp only [List.length_cons] at hfit; omega
    subst hs1
    have hg : (c : Int) > (SSD1306_WIDTH : Int) - 8 ∨ y > (SSD1306_HEIGHT : Int) - 8 := by
      left; simp only [SSD1306_WIDTH]; omega
    simp only [WriteString_loop, Option.some.injEq] at h1
    simp only [WriteString, if_pos hg, h1]

/-- Once the column is right of the panel, a string that runs to column 2^15
makes the `int16_t` column wrap, and the character after the wrap is stored
below the array. -/
theorem WriteString_loop_wraps (font : Nat → Nat) (b : List Nat) (x : Int) (s1 : List Nat)
    (hx : 120 < x) (hlen : x + 8 * (s1.length : Int) = 32760) (hnz : ∀ c ∈ s1, c ≠ 0) :
    (Option.some b).bind (WriteString_loop font 0 (s1 ++ [65, 65]) x) = none := by
  have hw : toInt16 (32760 + 8) = -32768 := by decide
  have hg2 : (32760 : Int) > (SSD1306_WIDTH : Int) - 8 ∨ (0 : Int) > (SSD1306_HEIGHT : Int) - 8 := by
    left; simp only [SSD1306_WIDTH]; omega
  have hc1 : WriteChar font b 32760 0 65 = some b := by simp only [WriteChar, if_pos hg2]
  have hc2 : WriteChar font b (-32768) 0 65 = none :=
    WriteChar_below font b (-32768) 0 65 (by omega) (by omega) (by omega) (by omega)
  have h65 : ¬ ((65 : Nat) = 0) := by decide
  rw [Option.some_bind,
    WriteString_loop_append font 0 s1 [65, 65] x b hnz (by omega) (by omega),
    WriteString_loop_clipped font 0 s1 x b hx (by omega), Option.some_bind, hlen]
  simp only [WriteString_loop, if_neg h65, hc1, Option.some_bind, hw, hc2, Option.none_bind]

/-- The 4097 characters `'A'` split at the right edge of the panel and just
before the column counter wraps. -/
theorem replicate_4097_split :
    List.replicate 4097 65 = List.replicate 16 65 ++ (List.replicate 4079 65 ++ [65, 65]) := by
  have h2 : ([65, 65] : List Nat) = List.replicate 2 65 := rfl
  rw [h2, ← List.replicate_add, ← List.replicate_add]

/-- The text of the else-branch as stored in `waiting`. -/
theorem sprintf16_waiting :
    sprintf16 "Sensor fault..." =
      some [83, 101, 110, 115, 111, 114, 32, 102, 97, 117, 108, 116, 46, 46, 46] := by
  decide

/-- The else-branch of the loop of `main` on a buffer of the full length: the
result, byte by byte. -/
theorem main_loop_buf_fault (font : Nat → Nat) (buf : List Nat) (hlen : buf.length = 1024) :
    ∃ out, main_loop_buf font buf none = some out ∧ out.length = 1024 ∧
      ∀ j : Nat, out[j]? =
        if j < 120 then
          some (font (GetFontIndex
            ([83, 101, 110, 115, 111, 114, 32, 102, 97, 117, 108, 116, 46, 46, 46].getD (j / 8) 0)
              * 8 + ((j % 8 : Nat) : Int)).toNat)
        else buf[j]? := by
  have hg : ¬ ((0 : Int) > (SSD1306_WIDTH : Int) - 8 ∨ (0 : Int) > (SSD1306_HEIGHT : Int) - 8) := by
    simp only [SSD1306_WIDTH, SSD1306_HEIGHT]; omega
  obtain ⟨out, h1, h2, h3⟩ := WriteString_loop_fit font 0 (le_refl 0) (by omega)
    [83, 101, 110, 115, 111, 114, 32, 102, 97, 117, 108, 116, 46, 46, 46] 0 buf
    (by decide) (by decide) hlen
  refine ⟨out, ?_, h2, ?_⟩
  · simp only [main_loop_buf, sprintf16_waiting, Option.some_bind, WriteString, if_neg hg]
    exact h1
  · intro j
    rw [h3 j]
    have e0 : ((0 : Int) / 8).toNat * 128 + 0 = 0 := by decide
    simp only [e0, List.length_cons, List.length_nil, Nat.sub_zero]
    by_cases hj : j < 120
    · have hj2 : 0 ≤ j ∧ j < 0 + 8 * (0 + 1 + 1 + 1 + 1 + 1 + 1 + 1 + 1 + 1 + 1 + 1 + 1 + 1 + 1 + 1) := by
        omega
      rw [if_pos hj, if_pos hj2]
    · have hj2 : ¬ (0 ≤ j ∧ j < 0 + 8 * (0 + 1 + 1 + 1 + 1 + 1 + 1 + 1 + 1 + 1 + 1 + 1 + 1 + 1 + 1 + 1)) := by
        omega
      rw [if_neg hj, if_neg hj2]

/-! ### The claims about the renderer -/

/-- C1: a start coordinate with `x > SSD1306_WIDTH - 8` (120) or
`y > SSD1306_HEIGHT - 8` (56) makes `WriteChar` and `WriteString` return with
the framebuffer unchanged, for every framebuffer, character and string. -/
theorem C1_clipped_start_is_noop (font : Nat → Nat) (buf : List Nat) (x y : Int) (ch : Nat)
    (str : List Nat) (h : x > 120 ∨ y > 56) :
    (SSD1306_WIDTH : Int) - 8 = 120 ∧ (SSD1306_HEIGHT : Int) - 8 = 56 ∧
      WriteChar font buf x y ch = some buf ∧ WriteString font buf x y str = some buf := by
  have hg : x > (SSD1306_WIDTH : Int) - 8 ∨ y > (SSD1306_HEIGHT : Int) - 8 := by
    simp only [SSD1306_WIDTH, SSD1306_HEIGHT]; omega
  refine ⟨by decide, by decide, ?_, ?_⟩
  · simp only [WriteChar, if_pos hg]
  · simp only [WriteString, if_pos hg]

/-- C1 at a concrete input: column 121 on a three-byte buffer. -/
theorem C1_clipped_start_is_noop_witness :
    ((121 : Int) > 120 ∨ (0 : Int) > 56) ∧
      (SSD1306_WIDTH : Int) - 8 = 120 ∧ (SSD1306_HEIGHT : Int) - 8 = 56 ∧
      WriteChar block_font [1, 2, 3] 121 0 65 = some [1, 2, 3] ∧
      WriteString block_font [1, 2, 3] 121 0 [72, 105] = some [1, 2, 3] :=
  ⟨Or.inl (by decide),
    C1_clipped_start_is_noop block_font [1, 2, 3] 121 0 65 [72, 105] (Or.inl (by decide))⟩

/-- C3: for every `render_area` with 8-bit bounds, `calc_render_area_buflen`
sets `buflen` to `(end_col - start_col + 1) * (end_page - start_page + 1)`
computed over the integers and leaves the four bounds unchanged; for the
full-frame area of `main` the value is 1024, which is `SSD1306_BUF_LEN`. -/
theorem C3_calc_render_area_buflen (area : render_area)
    (h1 : area.start_col < 256) (h2 : area.end_col < 256)
    (h3 : area.start_page < 256) (h4 : area.end_page < 256) :
    (calc_render_area_buflen area).buflen =
        ((area.end_col : Int) - (area.start_col : Int) + 1)
          * ((area.end_page : Int) - (area.start_page : Int) + 1) ∧
      (calc_render_area_buflen area).start_col = area.start_col ∧
      (calc_render_area_buflen area).end_col = area.end_col ∧
      (calc_render_area_buflen area).start_page = area.start_page ∧
      (calc_render_area_buflen area).end_page = area.end_page ∧
      (∀ junk : Int, (calc_render_area_buflen (frame_area junk)).buflen = 1024) ∧
      SSD1306_BUF_LEN = 1024 := by
  refine ⟨?_, rfl, rfl, rfl, rfl, ?_, by decide⟩
  · have ha : |(area.end_col : Int) - (area.start_col : Int) + 1| ≤ 256 := by
      rw [abs_le]; constructor <;> omega
    have hb : |(area.end_page : Int) - (area.start_page : Int) + 1| ≤ 256 := by
      rw [abs_le]; constructor <;> omega
    have hp : |((area.end_col : Int) - (area.start_col : Int) + 1)
        * ((area.end_page : Int) - (area.start_page : Int) + 1)| ≤ 256 * 256 := by
      rw [abs_mul]
      exact mul_le_mul ha hb (abs_nonneg _) (by norm_num)
    rw [abs_le] at hp
    simp only [calc_render_area_buflen]
    exact toInt32_of_range _ (by omega) (by omega)
  · intro junk
    simp only [calc_render_area_buflen, frame_area]
    decide

/-- C3 at a concrete input: an area whose end column precedes its start. -/
theorem C3_calc_render_area_buflen_witness :
    (calc_render_area_buflen ⟨5, 2, 7, 7, 0⟩).buflen = ((2 : Int) - 5 + 1) * ((7 : Int) - 7 + 1) ∧
      (calc_render_area_buflen ⟨5, 2, 7, 7, 0⟩).start_col = 5 ∧
      (calc_render_area_buflen ⟨5, 2, 7, 7, 0⟩).end_col = 2 ∧
      (calc_render_area_buflen ⟨5, 2, 7, 7, 0⟩).start_page = 7 ∧
      (calc_render_area_buflen ⟨5, 2, 7, 7, 0⟩).end_page = 7 ∧
      (∀ junk : Int, (calc_render_area_buflen (frame_area junk)).buflen = 1024) ∧
      SSD1306_BUF_LEN = 1024 :=
  C3_calc_render_area_buflen ⟨5, 2, 7, 7, 0⟩ (by decide) (by decide) (by decide) (by decide)

/-- C4: `GetFontIndex ch` is `ch - ' '` for `' ' ≤ ch ≤ 127` and `0` for every
other byte; hence for a byte `c` outside that range `WriteChar` produces the
same framebuffer as for `' '`, the glyph at index 0. -/
theorem C4_GetFontIndex_fallback :
    (∀ ch : Nat, 32 ≤ ch → ch ≤ 127 → GetFontIndex ch = (ch : Int) - 32) ∧
      (∀ ch : Nat, ¬ (32 ≤ ch ∧ ch ≤ 127) → GetFontIndex ch = 0) ∧
      GetFontIndex 32 = 0 ∧
      (∀ (font : Nat → Nat) (buf : List Nat) (x y : Int) (c : Nat), ¬ (32 ≤ c ∧ c ≤ 127) →
        WriteChar font buf x y c = WriteChar font buf x y 32) := by
  have hout : ∀ ch : Nat, ¬ (32 ≤ ch ∧ ch ≤ 127) → GetFontIndex ch = 0 := by
    intro ch h
    unfold GetFontIndex
    rw [if_neg h]
  refine ⟨?_, hout, by decide, ?_⟩
  · intro ch h1 h2
    unfold GetFontIndex
    rw [if_pos ⟨h1, h2⟩]
  · intro font buf x y c h
    have e : GetFontIndex 32 = 0 := by decide
    simp only [WriteChar, hout c h, e]

/-- C4 at concrete inputs: the bytes 65 and 200. -/
theorem C4_GetFontIndex_fallback_witness :
    GetFontIndex 65 = ((65 : Nat) : Int) - 32 ∧ GetFontIndex 200 = 0 ∧
      WriteChar block_font (List.replicate 1024 7) 16 9 200
        = WriteChar block_font (List.replicate 1024 7) 16 9 32 :=
  ⟨C4_GetFontIndex_fallback.1 65 (by decide) (by decide),
   C4_GetFontIndex_fallback.2.1 200 (by decide),
   C4_GetFontIndex_fallback.2.2.2 block_font (List.replicate 1024 7) 16 9 200 (by decide)⟩

/-- C5: on a framebuffer of length 1024 and a start with `0 ≤ x ≤ 120`,
`0 ≤ y ≤ 56`, `WriteChar` returns a buffer of the same length whose bytes
`(y/8)*128 + x + i`, `i` in `0..7`, are `font[GetFontIndex(ch)*8 + i]` and
whose other bytes are unchanged; two calls whose `y` have the same quotient by
8 give the same result. -/
theorem C5_WriteChar_blit (font : Nat → Nat) (buf : List Nat) (x y : Int) (ch : Nat)
    (hlen : buf.length = 1024) (hx0 : 0 ≤ x) (hx : x ≤ 120) (hy0 : 0 ≤ y) (hy : y ≤ 56) :
    ∃ out, WriteChar font buf x y ch = some out ∧ out.length = buf.length ∧
      (∀ i : Nat, i < 8 →
        out[(y / 8 * 128 + x).toNat + i]? = some (font (GetFontIndex ch * 8 + (i : Int)).toNat)) ∧
      (∀ j : Nat, (j < (y / 8 * 128 + x).toNat ∨ (y / 8 * 128 + x).toNat + 8 ≤ j) →
        out[j]? = buf[j]?) ∧
      (∀ y2 : Int, 0 ≤ y2 → y2 ≤ 56 → y2 / 8 = y / 8 →
        WriteChar font buf x y2 ch = WriteChar font buf x y ch) := by
  obtain ⟨out, h1, h2, h3⟩ := WriteChar_inside font buf x y ch hlen hx0 hx hy0 hy
  refine ⟨out, h1, by omega, ?_, ?_, ?_⟩
  · intro i hi
    rw [h3]
    have hc : (y / 8 * 128 + x).toNat ≤ (y / 8 * 128 + x).toNat + i ∧
        (y / 8 * 128 + x).toNat + i < (y / 8 * 128 + x).toNat + 8 := by omega
    rw [if_pos hc, Nat.add_sub_cancel_left]
  · intro j hj
    rw [h3]
    have hc : ¬ ((y / 8 * 128 + x).toNat ≤ j ∧ j < (y / 8 * 128 + x).toNat + 8) := by omega
    rw [if_neg hc]
  · intro y2 h0 h56 hq
    apply WriteChar_same_row font buf x y2 y ch h56 hy
    rw [Int.tdiv_eq_ediv, Int.tdiv_eq_ediv] <;> omega

/-- C5 at a concrete input: the character 65 at `(8, 17)` on a cleared buffer. -/
theorem C5_WriteChar_blit_witness :
    (List.replicate 1024 0).length = 1024 ∧ (0 : Int) ≤ 8 ∧ (8 : Int) ≤ 120 ∧
    (0 : Int) ≤ 17 ∧ (17 : Int) ≤ 56 ∧
    ∃ out, WriteChar block_font (List.replicate 1024 0) 8 17 65 = some out ∧
      out.length = (List.replicate 1024 0).length ∧
      (∀ i : Nat, i < 8 →
        out[((17 : Int) / 8 * 128 + 8).toNat + i]?
          = some (block_font (GetFontIndex 65 * 8 + (i : Int)).toNat)) ∧
      (∀ j : Nat, (j < ((17 : Int) / 8 * 128 + 8).toNat ∨ ((17 : Int) / 8 * 128 + 8).toNat + 8 ≤ j) →
        out[j]? = (List.replicate 1024 0)[j]?) ∧
      (∀ y2 : Int, 0 ≤ y2 → y2 ≤ 56 → y2 / 8 = (17 : Int) / 8 →
        WriteChar block_font (List.replicate 1024 0) 8 y2 65
          = WriteChar block_font (List.replicate 1024 0) 8 17 65) :=
  ⟨List.length_replicate 1024 0, by decide, by decide, by decide, by decide,
    C5_WriteChar_blit block_font (List.replicate 1024 0) 8 17 65 (List.length_replicate 1024 0)
      (by decide) (by decide) (by decide) (by decide)⟩

/-- C6, at the failing input: a string of 4097 characters `'A'` written from
`(0, 0)`. The column counter `x` is an `int16_t`; after 4096 additions of 8 it
wraps to `-32768`, the guard of `WriteChar` lets it pass and the store falls
below the array, whatever the framebuffer. -/
theorem C6_WriteString_column_wraps (font : Nat → Nat) (buf : List Nat) :
    toInt16 (32760 + 8) = -32768 ∧
      WriteString font buf 0 0 (List.replicate 4097 65) = none := by
  have hw : toInt16 (32760 + 8) = -32768 := by decide
  refine ⟨hw, ?_⟩
  have hg : ¬ ((0 : Int) > (SSD1306_WIDTH : Int) - 8 ∨ (0 : Int) > (SSD1306_HEIGHT : Int) - 8) := by
    simp only [SSD1306_WIDTH, SSD1306_HEIGHT]; omega
  have hnz : ∀ n : Nat, ∀ c ∈ List.replicate n 65, c ≠ 0 := by
    intro n c hc
    rw [List.eq_of_mem_replicate hc]; decide
  have hl1 : ((List.replicate 16 65).length : Int) = 16 := by rw [List.length_replicate]; rfl
  have hl2 : ((List.replicate 4079 65).length : Int) = 4079 := by
    rw [List.length_replicate]; rfl
  simp only [WriteString, if_neg hg]
  rw [replicate_4097_split,
    WriteString_loop_append font 0 _ _ 0 buf (hnz 16) (by omega) (by rw [hl1]; omega), hl1]
  cases WriteString_loop font 0 (List.replicate 16 65) 0 buf with
  | none => rfl
  | some b =>
    have e : (0 : Int) + 8 * 16 = 128 := by decide
    rw [e]
    exact WriteString_loop_wraps font b 128 (List.replicate 4079 65) (by omega)
      (by rw [hl2]; omega) (hnz 4079)

/-- C7, at the failing input: the start `(-1, 0)` satisfies `x ≤ 120` and
`y ≤ 56`, the guard of `WriteChar` lets it pass, the first index written is
`-1` and the store falls below the array, whatever the framebuffer. -/
theorem C7_WriteChar_negative_column (font : Nat → Nat) (buf : List Nat) (ch : Nat) :
    ((-1 : Int) ≤ 120 ∧ (0 : Int) ≤ 56) ∧
      ¬ ((-1 : Int) > (SSD1306_WIDTH : Int) - 8 ∨ (0 : Int) > (SSD1306_HEIGHT : Int) - 8) ∧
      toInt32 (toInt16 (Int.tdiv 0 8) * 128 + (-1)) = -1 ∧
      WriteChar font buf (-1) 0 ch = none := by
  have hg : ¬ ((-1 : Int) > (SSD1306_WIDTH : Int) - 8 ∨ (0 : Int) > (SSD1306_HEIGHT : Int) - 8) := by
    decide
  have hfb : toInt32 (toInt16 (Int.tdiv 0 8) * 128 + (-1)) = -1 := by decide
  refine ⟨by decide, hg, hfb, ?_⟩
  simp only [WriteChar, if_neg hg, hfb, WriteChar_loop, store_below _ _ _ (by decide : (-1 : Int) < 0),
    Option.none_bind]

/-! ## Properties of the formatting -/

/-- A value strictly within one half of `n` rounds to `n`. -/
theorem round_nearest_eq (t : ℚ) (n : ℕ) (h1 : (n : ℚ) - 1 / 2 < t) (h2 : t < (n : ℚ) + 1 / 2) :
    round_nearest t = n := by
  unfold round_nearest
  by_cases h : (n : ℚ) ≤ t
  · have hf : ⌊t⌋ = (n : ℤ) := by
      rw [Int.floor_eq_iff]
      constructor
      · exact_mod_cast h
      · push_cast; linarith
    simp only [hf, Int.toNat_ofNat]
    have hr : t - (n : ℚ) < 1 / 2 := by linarith
    rw [if_pos hr]
  · push_neg at h
    rcases Nat.eq_zero_or_pos n with h0 | hpos
    · subst h0
      have hf : ⌊t⌋ = -1 := by
        rw [Int.floor_eq_iff]
        constructor
        · push_cast; push_cast at h1; linarith
        · push_cast; push_cast at h; linarith
      simp only [hf]
      have hr : t - (((-1 : ℤ).toNat : ℕ) : ℚ) < 1 / 2 := by
        have : ((-1 : ℤ).toNat : ℕ) = 0 := by decide
        rw [this]; push_cast; push_cast at h; linarith
      rw [if_pos hr]
      decide
    · obtain ⟨m, rfl⟩ : ∃ m, n = m + 1 := ⟨n - 1, by omega⟩
      have hf : ⌊t⌋ = (m : ℤ) := by
        rw [Int.floor_eq_iff]
        constructor
        · push_cast at h1 ⊢; linarith
        · push_cast at h ⊢; linarith
      simp only [hf, Int.toNat_ofNat]
      push_cast at h1 h
      have hr1 : ¬ (t - (m : ℚ) < 1 / 2) := by linarith
      have hr2 : 1 / 2 < t - (m : ℚ) := by linarith
      rw [if_neg hr1, if_pos hr2]

/-- The text of `%.2f` for a non-negative value whose hundredfold is strictly
within one half of `n`. -/
theorem fmt2_of_round (v : ℚ) (n : ℕ) (hv : 0 ≤ v) (h1 : (n : ℚ) - 1 / 2 < v * 100)
    (h2 : v * 100 < (n : ℚ) + 1 / 2) :
    fmt2 v = "" ++ toString (n / 100) ++ "." ++ (if n % 100 < 10 then "0" else "")
      ++ toString (n % 100) := by
  unfold fmt2
  have hneg : ¬ (v < 0) := not_lt.mpr hv
  rw [abs_of_nonneg hv, round_nearest_eq (v * 100) n h1 h2, if_neg hneg]

/-- The Baro line of the scenario, for a converted value within 10^-6 of the
exact product. -/
theorem baro_text_near (e : ℚ) (he : |e| ≤ 1 / 1000000) :
    baro_text (baro_value 101325 + e) = "Baro: 30.01inHg" := by
  rw [abs_le] at he
  have hv : baro_value 101325 = 30.00577755 := by unfold baro_value; norm_num
  unfold baro_text
  rw [fmt2_of_round _ 3001 (by rw [hv]; norm_num; linarith) (by rw [hv]; norm_num; linarith)
    (by rw [hv]; norm_num; linarith)]
  decide

/-- The Temp line of the scenario, for a converted value within 10^-6 of the
exact one. -/
theorem temp_text_near (e : ℚ) (he : |e| ≤ 1 / 1000000) :
    temp_text (temp_value 20 + e) = "Temp: 68.00F" := by
  rw [abs_le] at he
  have hv : temp_value 20 = 68 := by unfold temp_value; norm_num
  unfold temp_text
  rw [fmt2_of_round _ 6800 (by rw [hv]; linarith) (by rw [hv]; norm_num; linarith)
    (by rw [hv]; norm_num; linarith)]
  decide

/-- The Hum line of the scenario. -/
theorem hum_text_45 : hum_text 45 = "Hum: 45.00" := by
  unfold hum_text
  rw [fmt2_of_round 45 4500 (by norm_num) (by norm_num) (by norm_num)]
  decide

/-- The three lines of the scenario in exact arithmetic. -/
theorem main_lines_scenario :
    main_lines ⟨20, 101325, 45, 0⟩ = ("Baro: 30.01inHg", "Temp: 68.00F", "Hum: 45.00") := by
  have h1 := baro_text_near 0 (by norm_num)
  have h2 := temp_text_near 0 (by norm_num)
  rw [add_zero] at h1 h2
  simp only [main_lines, h1, h2, hum_text_45]

/-- C8, as the code computes it: for the response
`{temp = 20.0, pressure = 101325.0, humidity = 45.0, status = 0}` the three
formatted lines are `Baro: 30.01inHg`, `Temp: 68.00F` and `Hum: 45.00`, and the
first two stay so for every perturbation of the converted value by at most
10^-6, which covers the rounding of binary floating point. -/
theorem C8_scenario_lines :
    main_lines ⟨20, 101325, 45, 0⟩ = ("Baro: 30.01inHg", "Temp: 68.00F", "Hum: 45.00") ∧
      baro_value 101325 = 30.00577755 ∧
      ∀ e : ℚ, |e| ≤ 1 / 1000000 →
        baro_text (baro_value 101325 + e) = "Baro: 30.01inHg" ∧
        temp_text (temp_value 20 + e) = "Temp: 68.00F" :=
  ⟨main_lines_scenario, by unfold baro_value; norm_num,
    fun e he => ⟨baro_text_near e he, temp_text_near e he⟩⟩

/-- C8 at a concrete perturbation of one half of 10^-6. -/
theorem C8_scenario_lines_witness :
    |(1 / 2000000 : ℚ)| ≤ 1 / 1000000 ∧
      baro_text (baro_value 101325 + 1 / 2000000) = "Baro: 30.01inHg" ∧
      temp_text (temp_value 20 + 1 / 2000000) = "Temp: 68.00F" :=
  ⟨by rw [abs_le]; constructor <;> norm_num,
    C8_scenario_lines.2.2 (1 / 2000000) (by rw [abs_le]; constructor <;> norm_num)⟩

/-- C8, against the claim: the Baro line of the scenario is not
`Baro: 30.00inHg`, since `101325 * 0.000296134 = 30.00577755`. -/
theorem C8_scenario_baro_not_3000 :
    main_lines ⟨20, 101325, 45, 0⟩ ≠ ("Baro: 30.00inHg", "Temp: 68.00F", "Hum: 45.00") := by
  rw [main_lines_scenario]
  decide

/-! ## Properties of the display loop -/

/-- The three texts of the scenario as stored in `baro`, `temp` and `hum`. -/
theorem sprintf16_scenario :
    sprintf16 "Baro: 30.01inHg"
        = some [66, 97, 114, 111, 58, 32, 51, 48, 46, 48, 49, 105, 110, 72, 103] ∧
      sprintf16 "Temp: 68.00F" = some [84, 101, 109, 112, 58, 32, 54, 56, 46, 48, 48, 70] ∧
      sprintf16 "Hum: 45.00" = some [72, 117, 109, 58, 32, 52, 53, 46, 48, 48] := by
  decide

/-- The call `memset(buf, c, n)` keeps the length of the array. -/
theorem memset_length (buf : List Nat) (c n : Nat) (h : n ≤ buf.length) :
    (memset buf c n).length = buf.length := by
  simp only [memset, List.length_append, List.length_replicate, List.length_drop]
  omega

/-- The if-branch of the loop of `main` for the scenario response, with the
stand-in glyph table: the glyph of `'B'` starts at byte 128 (page 1,
column 0). -/
theorem main_loop_buf_scenario (buf : List Nat) (hlen : buf.length = 1024) :
    ∃ out, main_loop_buf block_font buf (some ⟨20, 101325, 45, 0⟩) = some out ∧
      out.length = 1024 ∧ out[128]? = some 255 := by
  have hl := main_lines_scenario
  simp only [main_lines, Prod.mk.injEq] at hl
  obtain ⟨hb, ht, hh⟩ := hl
  have hB : SSD1306_BUF_LEN = 1024 := by decide
  have hm : (memset buf 0 SSD1306_BUF_LEN).length = 1024 := by
    rw [memset_length buf 0 SSD1306_BUF_LEN (by omega), hlen]
  have hsp : cstr " " = [32] := by decide
  have e0 : ((0 : Nat) : Int) = 0 := rfl
  obtain ⟨b0, h0, l0, _⟩ := WriteString_loop_fit block_font 0 (by omega) (by omega)
    [32] 0 _ (by decide) (by decide) hm
  obtain ⟨b1, h1, l1, g1⟩ := WriteString_loop_fit block_font 10 (by omega) (by omega)
    [66, 97, 114, 111, 58, 32, 51, 48, 46, 48, 49, 105, 110, 72, 103] 0 b0
    (by decide) (by decide) l0
  obtain ⟨b2, h2, l2, g2⟩ := WriteString_loop_fit block_font 20 (by omega) (by omega)
    [84, 101, 109, 112, 58, 32, 54, 56, 46, 48, 48, 70] 0 b1 (by decide) (by decide) l1
  obtain ⟨b3, h3, l3, g3⟩ := WriteString_loop_fit block_font 30 (by omega) (by omega)
    [72, 117, 109, 58, 32, 52, 53, 46, 48, 48] 0 b2 (by decide) (by decide) l2
  rw [e0] at h0 h1 h2 h3
  refine ⟨b3, ?_, l3, ?_⟩
  · simp only [main_loop_buf]
    rw [hb, ht, hh, sprintf16_scenario.1, Option.some_bind, sprintf16_scenario.2.1,
      Option.some_bind, sprintf16_scenario.2.2, Option.some_bind, hsp,
      WriteString_inside_guard _ _ 0 0 _ (by omega) (by omega), h0, Option.some_bind,
      WriteString_inside_guard _ _ 0 10 _ (by omega) (by omega), h1, Option.some_bind,
      WriteString_inside_guard _ _ 0 20 _ (by omega) (by omega), h2, Option.some_bind,
      WriteString_inside_guard _ _ 0 30 _ (by omega) (by omega), h3]
  · rw [g3 128, if_neg (by decide), g2 128, if_neg (by decide), g1 128, if_pos (by decide)]
    decide

/-- C10, against the claim: after a Draining iteration for the scenario
response, a Faulting iteration hands to `render` a buffer whose byte 128
(page 1, column 0) still holds the glyph byte of the `'B'` of the Baro line. -/
theorem C10_fault_keeps_old_lines :
    ((main_loop_buf block_font (List.replicate 1024 0) (some ⟨20, 101325, 45, 0⟩)).bind
        fun buf => main_loop_buf block_font buf none).map (fun buf => buf[128]?)
      = some (some 255) := by
  obtain ⟨b, hb, hlen, h128⟩ := main_loop_buf_scenario (List.replicate 1024 0)
    (List.length_replicate 1024 0)
  obtain ⟨out, ho, _, hget⟩ := main_loop_buf_fault block_font b hlen
  have h120 : ¬ (128 < 120) := by decide
  rw [hb, Option.some_bind, ho, Option.map_some', hget 128, if_neg h120, h128]

/-- C10, as the code does it: in a Faulting iteration the buffer handed to
`render` holds the 15 glyphs of `Sensor fault...` in page 0, columns 0..119,
and every other byte (page 0 columns 120..127 and pages 1..7) is as the
earlier iterations left it. -/
theorem C10_fault_line_overlays (font : Nat → Nat) (buf : List Nat) (hlen : buf.length = 1024) :
    ∃ out, main_loop_buf font buf none = some out ∧ out.length = 1024 ∧
      (∀ k i : Nat, k < 15 → i < 8 →
        out[8 * k + i]? =
          some (font (GetFontIndex ((cstr "Sensor fault...").getD k 0) * 8 + (i : Int)).toNat)) ∧
      (∀ j : Nat, 120 ≤ j → out[j]? = buf[j]?) := by
  obtain ⟨out, ho, hl, hget⟩ := main_loop_buf_fault font buf hlen
  have hs : cstr "Sensor fault..."
      = [83, 101, 110, 115, 111, 114, 32, 102, 97, 117, 108, 116, 46, 46, 46] := by decide
  refine ⟨out, ho, hl, ?_, ?_⟩
  · intro k i hk hi
    have h1 : 8 * k + i < 120 := by omega
    have h2 : (8 * k + i) / 8 = k := by omega
    have h3 : (8 * k + i) % 8 = i := by omega
    rw [hget, if_pos h1, h2, h3, hs]
  · intro j hj
    have h1 : ¬ (j < 120) := by omega
    rw [hget, if_neg h1]

/-- C10 at a concrete input: a buffer filled with the byte 9. -/
theorem C10_fault_line_overlays_witness :
    (List.replicate 1024 9).length = 1024 ∧
    ∃ out, main_loop_buf block_font (List.replicate 1024 9) none = some out ∧ out.length = 1024 ∧
      (∀ k i : Nat, k < 15 → i < 8 →
        out[8 * k + i]? =
          some (block_font (GetFontIndex ((cstr "Sensor fault...").getD k 0) * 8 + (i : Int)).toNat)) ∧
      (∀ j : Nat, 120 ≤ j → out[j]? = (List.replicate 1024 9)[j]?) :=
  ⟨List.length_replicate 1024 9,
    C10_fault_line_overlays block_font (List.replicate 1024 9) (List.length_replicate 1024 9)⟩

/-! ## Properties of the cross-core protocol -/

/-- What holds in every state of the fault path, for any descriptor. -/
theorem fault_invariant {F : Type} (entry : queue_entry_t F) (s : Sys F)
    (h : FaultReachable entry s) :
    s.from_core1_queue = [] ∧ s.to_core1_queue.length ≤ 2 ∧
      (∀ e ∈ s.to_core1_queue, e = entry) ∧ s.core0 ≠ Core0Pc.remove ∧
      s.core1 = Core1Pc.remove := by
  induction h with
  | init =>
    refine ⟨rfl, by simp [init_state], ?_, ?_, rfl⟩
    · intro e he
      simpa [init_state] using he
    · simp [init_state]
  | core0 s t _ hstep ih =>
    obtain ⟨hfrom, hlen, hall, hpc0, hpc1⟩ := ih
    unfold core0_step at hstep
    cases hc : s.core0 with
    | is_empty =>
      rw [hc] at hstep
      simp only [hfrom, queue_is_empty, List.isEmpty_nil, Bool.not_true, Bool.false_eq_true,
        if_false, Option.some.injEq] at hstep
      subst hstep
      exact ⟨rfl, hlen, hall, by simp, hpc1⟩
    | remove => exact absurd hc hpc0
    | add =>
      rw [hc] at hstep
      simp only [queue_add_blocking] at hstep
      by_cases hroom : s.to_core1_queue.length < 2
      · simp only [if_pos hroom, Option.some.injEq] at hstep
        subst hstep
        refine ⟨hfrom, by simp; omega, ?_, by simp, hpc1⟩
        intro e he
        simp only [List.mem_append, List.mem_singleton] at he
        rcases he with he | he
        · exact hall e he
        · exact he
      · simp only [if_neg hroom] at hstep
        exact absurd hstep (by simp)
  | core1 s t w _ hstatus hstep ih =>
    obtain ⟨hfrom, hlen, hall, hpc0, hpc1⟩ := ih
    unfold core1_step at hstep
    rw [hpc1] at hstep
    cases hq : s.to_core1_queue with
    | nil =>
      rw [hq] at hstep
      simp [queue_remove_blocking] at hstep
    | cons e rest =>
      have hne : (e.func e.ctx w).status ≠ 0 := by
        intro h0
        apply hstatus
        simp only [invoked_status, hpc1, hq, h0]
      rw [hq] at hstep
      simp only [queue_remove_blocking, if_neg hne, Option.some.injEq] at hstep
      subst hstep
      refine ⟨hfrom, ?_, ?_, hpc0, rfl⟩
      · rw [hq] at hlen; simp only [List.length_cons] at hlen; simp only; omega
      · intro e2 he2
        exact hall e2 (by rw [hq]; simp [he2])

/-- C2: one iteration of the loop of `core1_entry` removes the head descriptor
from the command queue, invokes its function on its context, and appends the
response to the result queue exactly when its status is 0; for a non-zero
status the result queue is unchanged and the response is dropped. The enqueue
blocks while the result queue holds 2 entries. -/
theorem C2_core1_iteration {F : Type} (s : Sys F) (w : SensorInput F)
    (entry : queue_entry_t F) (rest : List (queue_entry_t F))
    (hpc : s.core1 = Core1Pc.remove) (hq : s.to_core1_queue = entry :: rest) :
    core1_step s w = some { s with
        to_core1_queue := rest,
        core1 := if (entry.func entry.ctx w).status = 0 then
            Core1Pc.add (entry.func entry.ctx w) else Core1Pc.remove } ∧
      (s.from_core1_queue.length < 2 →
        core1_iteration s w = some
          { to_core1_queue := rest,
            from_core1_queue :=
              if (entry.func entry.ctx w).status = 0 then
                s.from_core1_queue ++ [entry.func entry.ctx w]
              else s.from_core1_queue,
            core0 := s.core0, core1 := Core1Pc.remove }) ∧
      ((entry.func entry.ctx w).status ≠ 0 →
        core1_iteration s w = some
          { to_core1_queue := rest, from_core1_queue := s.from_core1_queue,
            core0 := s.core0, core1 := Core1Pc.remove }) ∧
      ((entry.func entry.ctx w).status = 0 → ¬ s.from_core1_queue.length < 2 →
        core1_iteration s w = none) ∧
      (∀ (ctx : Ctx) (v : SensorInput F), (read_dps310_data ctx v).status = v.res) := by
  have hread : ∀ (ctx : Ctx) (v : SensorInput F), (read_dps310_data ctx v).status = v.res :=
    fun _ _ => rfl
  by_cases h0 : (entry.func entry.ctx w).status = 0
  · have hstep : core1_step s w = some { s with
        to_core1_queue := rest, core1 := Core1Pc.add (entry.func entry.ctx w) } := by
      simp only [core1_step, hpc, hq, queue_remove_blocking, if_pos h0]
    refine ⟨by rw [hstep, if_pos h0], ?_, fun hne => absurd h0 hne, ?_, hread⟩
    · intro hroom
      rw [core1_iteration, hstep, Option.some_bind]
      simp only [core1_step, queue_add_blocking, if_pos hroom, if_pos h0]
    · intro _ hfull
      rw [core1_iteration, hstep, Option.some_bind]
      simp only [core1_step, queue_add_blocking, if_neg hfull]
  · have hstep : core1_step s w = some { s with
        to_core1_queue := rest, core1 := Core1Pc.remove } := by
      simp only [core1_step, hpc, hq, queue_remove_blocking, if_neg h0]
    refine ⟨by rw [hstep, if_neg h0], ?_, ?_, fun h => absurd h h0, hread⟩
    · intro _
      rw [core1_iteration, hstep, Option.some_bind]
      simp only [if_neg h0]
    · intro _
      rw [core1_iteration, hstep, Option.some_bind]

/-- C2 at a concrete input: the state after initialisation and a read that
returns 0. -/
theorem C2_core1_iteration_witness :
    core1_step (init_state (main_entry Int 7)) ⟨0, 20, 101325, 45, ⟨1, 2, 3, 4⟩⟩
        = some { init_state (main_entry Int 7) with
            to_core1_queue := [],
            core1 := if ((main_entry Int 7).func (main_entry Int 7).ctx
                ⟨0, 20, 101325, 45, ⟨1, 2, 3, 4⟩⟩).status = 0 then
              Core1Pc.add ((main_entry Int 7).func (main_entry Int 7).ctx
                ⟨0, 20, 101325, 45, ⟨1, 2, 3, 4⟩⟩)
            else Core1Pc.remove } ∧
      ((main_entry Int 7).func (main_entry Int 7).ctx ⟨0, 20, 101325, 45, ⟨1, 2, 3, 4⟩⟩).status = 0 ∧
      core1_iteration (init_state (main_entry Int 7)) ⟨0, 20, 101325, 45, ⟨1, 2, 3, 4⟩⟩
        = some { to_core1_queue := [],
                 from_core1_queue := [⟨20, 101325, 45, 0⟩],
                 core0 := Core0Pc.is_empty, core1 := Core1Pc.remove } :=
  ⟨(C2_core1_iteration (init_state (main_entry Int 7)) ⟨0, 20, 101325, 45, ⟨1, 2, 3, 4⟩⟩
      (main_entry Int 7) [] rfl rfl).1,
    rfl,
    (C2_core1_iteration (init_state (main_entry Int 7)) ⟨0, 20, 101325, 45, ⟨1, 2, 3, 4⟩⟩
      (main_entry Int 7) [] rfl rfl).2.1 (by decide)⟩

/-- C9: on the fault path (no invocation returns status 0), in every reachable
state of the two loops the result queue is empty, the command queue holds at
most 2 entries, each equal to the descriptor created at start-up, and the loop
of `main` is never in its if-branch: at its head it takes the else-branch, and
there it enqueues that same descriptor once the command queue has room. -/
theorem C9_fault_path {F : Type} (ctx : Ctx) (s : Sys F)
    (h : FaultReachable (main_entry F ctx) s) :
    s.from_core1_queue = [] ∧ s.to_core1_queue.length ≤ 2 ∧
      (∀ e ∈ s.to_core1_queue, e = main_entry F ctx) ∧
      s.core0 ≠ Core0Pc.remove ∧
      (s.core0 = Core0Pc.is_empty →
        core0_step (main_entry F ctx) s = some { s with core0 := Core0Pc.add }) ∧
      (s.core0 = Core0Pc.add → s.to_core1_queue.length < 2 →
        core0_step (main_entry F ctx) s = some { s with
          to_core1_queue := s.to_core1_queue ++ [main_entry F ctx],
          core0 := Core0Pc.is_empty }) ∧
      (s.core0 = Core0Pc.add → s.to_core1_queue.length = 2 →
        core0_step (main_entry F ctx) s = none ∧
        ∀ w : SensorInput F, ∃ t, core1_step s w = some t ∧
          t.to_core1_queue = [main_entry F ctx] ∧ t.from_core1_queue = [] ∧
          t.core0 = Core0Pc.add) := by
  obtain ⟨hfrom, hlen, hall, hpc0, hpc1⟩ := fault_invariant (main_entry F ctx) s h
  refine ⟨hfrom, hlen, hall, hpc0, ?_, ?_, ?_⟩
  · intro hc
    simp only [core0_step, hc, hfrom, queue_is_empty, List.isEmpty_nil, Bool.not_true,
      Bool.false_eq_true, if_false]
  · intro hc hroom
    simp only [core0_step, hc, queue_add_blocking, if_pos hroom]
  · intro hc hfull
    have hno : ¬ s.to_core1_queue.length < 2 := by omega
    refine ⟨by simp only [core0_step, hc, queue_add_blocking, if_neg hno], ?_⟩
    intro w
    cases hq : s.to_core1_queue with
    | nil => rw [hq] at hfull; simp at hfull
    | cons e rest =>
      cases hr : rest with
      | nil => rw [hq, hr] at hfull; simp at hfull
      | cons e2 rest2 =>
        have hrest2 : rest2 = [] := by
          rw [hq, hr] at hfull
          simp only [List.length_cons] at hfull
          exact List.length_eq_zero.mp (by omega)
        have he2 : e2 = main_entry F ctx := hall e2 (by rw [hq, hr]; simp)
        subst hrest2 he2
        by_cases h0 : (e.func e.ctx w).status = 0
        · exact ⟨{ s with to_core1_queue := [main_entry F ctx],
                            core1 := Core1Pc.add (e.func e.ctx w) },
            by simp only [core1_step, hpc1, hq, hr, queue_remove_blocking, if_pos h0],
            rfl, hfrom, hc⟩
        · exact ⟨{ s with to_core1_queue := [main_entry F ctx], core1 := Core1Pc.remove },
            by simp only [core1_step, hpc1, hq, hr, queue_remove_blocking, if_neg h0],
            rfl, hfrom, hc⟩

/-- A state of the fault path: three steps of `main` (else-branch taken, second
descriptor enqueued, else-branch taken again), then one iteration of
`core1_entry` whose read returns `-1`. -/
theorem sample_fault_state_reachable :
    FaultReachable (main_entry Int 7) sample_fault_state := by
  have h0 : FaultReachable (main_entry Int 7) (init_state (main_entry Int 7)) :=
    FaultReachable.init
  have h1 := FaultReachable.core0 _
    { init_state (main_entry Int 7) with core0 := Core0Pc.add } h0 rfl
  have h2 := FaultReachable.core0 _
    { to_core1_queue := [main_entry Int 7, main_entry Int 7], from_core1_queue := [],
      core0 := Core0Pc.is_empty, core1 := Core1Pc.remove } h1 rfl
  have h3 := FaultReachable.core0 _
    { to_core1_queue := [main_entry Int 7, main_entry Int 7], from_core1_queue := [],
      core0 := Core0Pc.add, core1 := Core1Pc.remove } h2 rfl
  exact FaultReachable.core1 _ sample_fault_state ⟨-1, 0, 0, 0, ⟨1, 2, 3, 4⟩⟩ h3
    (by decide)
    (by simp [core1_step, queue_remove_blocking, main_entry, read_dps310_data,
      sample_fault_state])

/-- C9 at a concrete reachable state. -/
theorem C9_fault_path_witness :
    FaultReachable (main_entry Int 7) sample_fault_state ∧
      sample_fault_state.from_core1_queue = [] ∧
      sample_fault_state.to_core1_queue.length ≤ 2 ∧
      (∀ e ∈ sample_fault_state.to_core1_queue, e = main_entry Int 7) ∧
      sample_fault_state.core0 ≠ Core0Pc.remove ∧
      (sample_fault_state.core0 = Core0Pc.is_empty →
        core0_step (main_entry Int 7) sample_fault_state
          = some { sample_fault_state with core0 := Core0Pc.add }) ∧
      (sample_fault_state.core0 = Core0Pc.add → sample_fault_state.to_core1_queue.length < 2 →
        core0_step (main_entry Int 7) sample_fault_state = some { sample_fault_state with
          to_core1_queue := sample_fault_state.to_core1_queue ++ [main_entry Int 7],
          core0 := Core0Pc.is_empty }) ∧
      (sample_fault_state.core0 = Core0Pc.add → sample_fault_state.to_core1_queue.length = 2 →
        core0_step (main_entry Int 7) sample_fault_state = none ∧
        ∀ w : SensorInput Int, ∃ t, core1_step sample_fault_state w = some t ∧
          t.to_core1_queue = [main_entry Int 7] ∧ t.from_core1_queue = [] ∧
          t.core0 = Core0Pc.add) :=
  ⟨sample_fault_state_reachable, C9_fault_path 7 sample_fault_state sample_fault_state_reachable⟩

end Altimeter
